import Mathlib

/-!
Verification of `testing_tensorflow_linear_regression.py`.

The script is a linear-regression training pipeline: synthetic data
generation (`sklearn.datasets.make_regression`), min-max scaling
(`MinMaxScaler`), a train/test split (`train_test_split`), a paired-sample
container (`Data`), a four-affine-layer model (`LinearRegression`), a
training loop with periodic reporting, and an MSE evaluation loop.

Real numbers are modelled by `ℚ`; the library calls the script delegates to
(`make_regression`, `MinMaxScaler`, `train_test_split`, `nn.Linear`,
`F.mse_loss`) are embedded from their documented semantics, and the locally
authored code (the `Data` class, the `LinearRegression.forward` pass, the
reporting condition, the evaluation accumulation) is embedded directly from
the source.
-/

namespace LinReg

/-! ### make_regression and reshape (script lines 11-13) -/

/-- Shape-level model of `datasets.make_regression(n_samples, n_features, ...)`:
an `n_samples × n_features` feature matrix (rows are samples) and a target
vector of length `n_samples`.  The numeric entries stand in for the library's
pseudo-random values; the claims about this call concern only the shapes. -/
def make_regression (n_samples n_features : ℕ) : List (List ℚ) × List ℚ :=
  ((List.range n_samples).map fun i =>
     (List.range n_features).map fun j => (i * n_features + j : ℕ),
   (List.range n_samples).map (Nat.cast : ℕ → ℚ))

/-- `y.reshape(-1, 1)` (line 13): a vector becomes a single-column matrix. -/
def reshape_col (y : List ℚ) : List (List ℚ) :=
  y.map fun v => [v]

/-- `n_samples=1000` from line 12. -/
def n_samples : ℕ := 1000

/-- `n_features=10` from line 12. -/
def n_features : ℕ := 10

/-! ### MinMaxScaler (script lines 16-19, 140-141)

`MinMaxScaler` with the default feature range `(0, 1)` fits, per column,
`data_min = min(col)`, `data_max = max(col)`,
`scale = 1 / (data_max - data_min)` (the zero range is replaced by 1),
`min_ = -data_min * scale`; `transform v = v * scale + min_`;
`inverse_transform t = (t - min_) / scale`. -/

/-- Minimum of a fitted column (`data_min_`); sklearn requires a non-empty fit,
the empty default is never used under the claims' hypotheses. -/
def data_min (col : List ℚ) : ℚ :=
  col.foldr min (col.headI)

/-- Maximum of a fitted column (`data_max_`). -/
def data_max (col : List ℚ) : ℚ :=
  col.foldr max (col.headI)

/-- `scale_` for feature range (0,1): reciprocal of the data range, with a
zero range replaced by 1 (sklearn's `_handle_zeros_in_scale`). -/
def minmax_scale (col : List ℚ) : ℚ :=
  if data_max col - data_min col = 0 then 1 else 1 / (data_max col - data_min col)

/-- `min_` for feature range (0,1): `-data_min * scale_`. -/
def minmax_min (col : List ℚ) : ℚ :=
  -(data_min col) * minmax_scale col

/-- `transform` of one value by a scaler fitted on `col`: `v * scale_ + min_`. -/
def minmax_transform (col : List ℚ) (v : ℚ) : ℚ :=
  v * minmax_scale col + minmax_min col

/-- `inverse_transform` of one value: `(t - min_) / scale_`. -/
def minmax_inverse (col : List ℚ) (t : ℚ) : ℚ :=
  (t - minmax_min col) / minmax_scale col

/-- `fit_transform` of a whole column. -/
def minmax_fit_transform_col (col : List ℚ) : List ℚ :=
  col.map (minmax_transform col)

/-- `fit_transform` of a matrix given as a list of columns: each column is
scaled by its own per-column statistics. -/
def minmax_fit_transform (cols : List (List ℚ)) : List (List ℚ) :=
  cols.map minmax_fit_transform_col

/-! ### train_test_split (script lines 22-23)

With a float `test_size`, sklearn draws `n_test = ceil(test_size * n)` and
`n_train = n - n_test` rows.  (In IEEE doubles `0.33 * 1000` is exactly
`330.0`, so the rational model and the float computation agree here.) -/

/-- Row counts `(n_train, n_test)` produced by
`train_test_split(..., test_size=t)` on `n` samples. -/
def train_test_split_sizes (n : ℕ) (t : ℚ) : ℕ × ℕ :=
  let n_test : ℕ := (⌈t * (n : ℚ)⌉).toNat
  (n - n_test, n_test)

/-! ### The Data container (script lines 26-44)

`Data.__init__` stores `self.X` and `self.y` (row lists) and sets
`self.len = self.X.shape[0]`; it performs no consistency check between the
two arrays.  `__getitem__(i)` returns `(self.X[i], self.y[i])`, raising
`IndexError` (modelled by `none`) when `i` is out of range for either
tensor; `__len__` returns `self.len`. -/

structure Data where
  X : List (List ℚ)
  y : List (List ℚ)

/-- `Data.__init__(X, y)`: stores both arrays unchecked.  (The
`astype(np.float32)` conversion is the identity in the rational model.) -/
def dataInit (X y : List (List ℚ)) : Data :=
  ⟨X, y⟩

/-- `Data.__len__`: `self.len`, which was set to `self.X.shape[0]`. -/
def Data.length (d : Data) : ℕ :=
  d.X.length

/-- `Data.__getitem__(index)`: `(self.X[index], self.y[index])`; `none`
models the `IndexError` raised when either index is out of range. -/
def Data.getitem (d : Data) (index : ℕ) : Option (List ℚ × List ℚ) :=
  match d.X.get? index, d.y.get? index with
  | some xr, some yr => some (xr, yr)
  | _, _ => none

/-! ### The LinearRegression model (script lines 62-94)

Each `nn.Linear(n, m)` applies `x ↦ W.mulVec x + b` to an input vector,
with `W : Matrix (Fin m) (Fin n) ℚ` and bias `b : Fin m → ℚ`.
`forward` chains the four layers with no activation in between. -/

/-- One `nn.Linear(n, m)` layer: a weight matrix and a bias vector. -/
structure Linear (m n : ℕ) where
  weight : Matrix (Fin m) (Fin n) ℚ
  bias : Fin m → ℚ

/-- Applying an `nn.Linear` layer to an input vector: `W x + b`. -/
def Linear.apply {m n : ℕ} (L : Linear m n) (x : Fin n → ℚ) : Fin m → ℚ :=
  L.weight.mulVec x + L.bias

/-- The `LinearRegression` module: four affine layers
(`input_to_hidden`, `hidden_layer_1`, `hidden_layer_2`, `hidden_to_output`). -/
structure LinearRegression (input_dim hidden_dim output_dim : ℕ) where
  input_to_hidden : Linear hidden_dim input_dim
  hidden_layer_1 : Linear hidden_dim hidden_dim
  hidden_layer_2 : Linear hidden_dim hidden_dim
  hidden_to_output : Linear output_dim hidden_dim

/-- `LinearRegression.forward` (lines 79-85): the four layers applied in
sequence, with no activation and no softmax at the end. -/
def LinearRegression.forward {d h o : ℕ} (M : LinearRegression d h o)
    (x : Fin d → ℚ) : Fin o → ℚ :=
  M.hidden_to_output.apply
    (M.hidden_layer_2.apply
      (M.hidden_layer_1.apply
        (M.input_to_hidden.apply x)))

/-- The single affine transform of the spec sentence: one weight matrix and
one bias, `x ↦ W x + b`.  Stated from the spec's words, to be compared with
`LinearRegression.forward`. -/
def singleAffine {d o : ℕ} (W : Matrix (Fin o) (Fin d) ℚ) (b : Fin o → ℚ)
    (x : Fin d → ℚ) : Fin o → ℚ :=
  W.mulVec x + b

/-! ### Training-loop reporting (script lines 103, 125-128) -/

/-- `epochs = 1000` from line 103. -/
def epochs : ℕ := 1000

/-- The reporting condition of line 125, `not ((epoch + 1) % (epochs // 10))`:
`none` models the `ZeroDivisionError` raised when `epochs // 10 == 0`,
`some b` says whether the progress line is printed for this epoch. -/
def report_check (eps epoch : ℕ) : Option Bool :=
  if eps / 10 = 0 then none
  else some ((epoch + 1) % (eps / 10) == 0)

/-! ### Evaluation loop (script lines 135-143)

Per test batch the script inverse-transforms predictions and labels and
accumulates `F.mse_loss` over them; the reported figure is the accumulated
loss divided by the number of batches. -/

/-- `F.mse_loss(predictions, labels)`: the mean of the squared differences
over the paired entries of a batch. -/
def mse_loss (predictions labels : List ℚ) : ℚ :=
  (((predictions.zip labels).map fun p => (p.1 - p.2) ^ 2).sum) / predictions.length

/-- The evaluation loop: per batch, inverse-transform predictions and labels
by the `y` scaler fitted on `ycol`, accumulate `mse_loss`, and divide the
total by the batch count. -/
def eval_loss (ycol : List ℚ) (batches : List (List ℚ × List ℚ)) : ℚ :=
  ((batches.map fun b =>
      mse_loss (b.1.map (minmax_inverse ycol)) (b.2.map (minmax_inverse ycol))).sum)
    / batches.length

/-! ## Helper lemmas -/

/-- The fitted scale is never zero: a zero data range is replaced by 1. -/
lemma minmax_scale_ne_zero (col : List ℚ) : minmax_scale col ≠ 0 := by
  unfold minmax_scale
  split
  · exact one_ne_zero
  · exact one_div_ne_zero (by assumption)

/-- The fitted minimum bounds every fitted value from below. -/
lemma foldr_min_le (l : List ℚ) (init v : ℚ) (hv : v ∈ l) :
    l.foldr min init ≤ v := by
  induction l with
  | nil => cases hv
  | cons a t ih =>
    rcases List.mem_cons.mp hv with h | h
    · simp [h]
    · exact le_trans (min_le_right a _) (ih h)

/-- The fitted maximum bounds every fitted value from above. -/
lemma le_foldr_max (l : List ℚ) (init v : ℚ) (hv : v ∈ l) :
    v ≤ l.foldr max init := by
  induction l with
  | nil => cases hv
  | cons a t ih =>
    rcases List.mem_cons.mp hv with h | h
    · simp [h]
    · exact le_trans (ih h) (le_max_right a _)

/-- A transformed fitted value lies in the unit interval. -/
lemma minmax_transform_mem_unit (col : List ℚ) (v : ℚ) (hv : v ∈ col) :
    0 ≤ minmax_transform col v ∧ minmax_transform col v ≤ 1 := by
  have hmin : data_min col ≤ v := foldr_min_le col col.headI v hv
  have hmax : v ≤ data_max col := le_foldr_max col col.headI v hv
  unfold minmax_transform minmax_min minmax_scale
  by_cases h0 : data_max col - data_min col = 0
  · have hv' : v = data_min col := le_antisymm (by linarith) hmin
    simp [h0, hv']
  · have hpos : 0 < data_max col - data_min col := by
      rcases lt_or_eq_of_le (by linarith : (0 : ℚ) ≤ data_max col - data_min col)
        with h | h
      · exact h
      · exact absurd h.symm h0
    simp only [h0, if_false]
    constructor
    · have : v * (1 / (data_max col - data_min col)) +
          -data_min col * (1 / (data_max col - data_min col)) =
          (v - data_min col) / (data_max col - data_min col) := by ring
      rw [this]
      exact div_nonneg (by linarith) (le_of_lt hpos)
    · have : v * (1 / (data_max col - data_min col)) +
          -data_min col * (1 / (data_max col - data_min col)) =
          (v - data_min col) / (data_max col - data_min col) := by ring
      rw [this]
      rw [div_le_one hpos]
      linarith

/-- Each batch's mean squared error is non-negative. -/
lemma mse_loss_nonneg (predictions labels : List ℚ) :
    0 ≤ mse_loss predictions labels := by
  unfold mse_loss
  apply div_nonneg
  · apply List.sum_nonneg
    intro x hx
    obtain ⟨pair, _, rfl⟩ := List.mem_map.mp hx
    positivity
  · positivity

/-! ## Theorems -/

/-- C1: the forward pass, four `nn.Linear` layers applied in sequence with no
activation between them, is a single affine transform: for every model there
are one weight matrix `W` and one bias `b` with `forward x = W x + b` for
every input vector `x`. -/
theorem C1_forward_is_single_affine (d h o : ℕ) (M : LinearRegression d h o) :
    ∃ (W : Matrix (Fin o) (Fin d) ℚ) (b : Fin o → ℚ),
      ∀ x : Fin d → ℚ, M.forward x = singleAffine W b x := by
  refine ⟨M.hidden_to_output.weight * (M.hidden_layer_2.weight *
      (M.hidden_layer_1.weight * M.input_to_hidden.weight)),
    M.hidden_to_output.weight.mulVec
        (M.hidden_layer_2.weight.mulVec
          (M.hidden_layer_1.weight.mulVec M.input_to_hidden.bias +
            M.hidden_layer_1.bias) +
          M.hidden_layer_2.bias) +
      M.hidden_to_output.bias, fun x => ?_⟩
  simp only [LinearRegression.forward, Linear.apply, singleAffine,
    Matrix.mulVec_add, Matrix.mulVec_mulVec]
  abel

/-- C2: splitting the 1000-sample scaled dataset with `test_size=0.33` gives
exactly 330 test rows and 670 train rows, and the two counts sum to 1000. -/
theorem C2_split_sizes :
    train_test_split_sizes n_samples (33 / 100) = (670, 330) ∧
    (train_test_split_sizes n_samples (33 / 100)).1 +
      (train_test_split_sizes n_samples (33 / 100)).2 = n_samples := by
  have hceil : (⌈(33 / 100 : ℚ) * ((1000 : ℕ) : ℚ)⌉).toNat = 330 := by
    have hq : ((33 / 100 : ℚ) * ((1000 : ℕ) : ℚ)) = 330 := by norm_num
    rw [hq]
    rfl
  have h : train_test_split_sizes n_samples (33 / 100) = (670, 330) := by
    unfold train_test_split_sizes n_samples
    rw [hceil]
  exact ⟨h, by rw [h]; rfl⟩

/-- C3: for every value `v` in the data a `MinMaxScaler` was fitted on,
`inverse_transform (transform v) = v` — the min-max scaling used for `X`
and `y` is reversible (exactly so in the rational model, hence within any
floating-point tolerance). -/
theorem C3_minmax_roundtrip (col : List ℚ) (v : ℚ) (_hv : v ∈ col) :
    minmax_inverse col (minmax_transform col v) = v := by
  unfold minmax_inverse minmax_transform
  have hs := minmax_scale_ne_zero col
  field_simp

/-- Witness for C3: round trip of the value 2 on the fitted data `[0, 2]`. -/
theorem C3_minmax_roundtrip_witness :
    minmax_inverse [(0 : ℚ), 2] (minmax_transform [(0 : ℚ), 2] 2) = 2 :=
  C3_minmax_roundtrip [(0 : ℚ), 2] 2 (by decide)

/-- C4: after `fit_transform`, every entry of the scaled matrix (each column
scaled by its own fitted statistics, as for `X_scaled` and `y_scaled`) lies
in the closed interval `[0, 1]`. -/
theorem C4_scaled_entries_in_unit_interval (cols : List (List ℚ))
    (c : List ℚ) (hc : c ∈ minmax_fit_transform cols)
    (t : ℚ) (ht : t ∈ c) :
    0 ≤ t ∧ t ≤ 1 := by
  obtain ⟨col, _, rfl⟩ := List.mem_map.mp hc
  obtain ⟨v, hv, rfl⟩ := List.mem_map.mp ht
  exact minmax_transform_mem_unit col v hv

/-- Witness for C4: the scaled image of 1 in the column `[0, 1, 2]`. -/
theorem C4_scaled_entries_witness :
    0 ≤ minmax_transform [(0 : ℚ), 1, 2] 1 ∧
      minmax_transform [(0 : ℚ), 1, 2] 1 ≤ 1 :=
  C4_scaled_entries_in_unit_interval [[(0 : ℚ), 1, 2]]
    (minmax_fit_transform_col [(0 : ℚ), 1, 2]) (by simp [minmax_fit_transform])
    (minmax_transform [(0 : ℚ), 1, 2] 1)
    (by simp [minmax_fit_transform_col])

/-- C5: a `Data` container built from paired arrays reports the row count of
its backing feature array as its length, and `__getitem__(i)` returns the
pair (row `i` of the features, row `i` of the targets) for every in-range
index. -/
theorem C5_data_container (X y : List (List ℚ)) (hlen : X.length = y.length)
    (i : ℕ) (hi : i < X.length) :
    (dataInit X y).length = X.length ∧
    (dataInit X y).getitem i = some (X.get ⟨i, hi⟩, y.get ⟨i, hlen ▸ hi⟩) := by
  refine ⟨rfl, ?_⟩
  have hx := List.get?_eq_get hi
  have hy := List.get?_eq_get (hlen ▸ hi : i < y.length)
  show (match X.get? i, y.get? i with
    | some xr, some yr => some (xr, yr)
    | _, _ => none) = _
  rw [hx, hy]

/-- Witness for C5 at a concrete one-row container. -/
theorem C5_data_container_witness :
    (dataInit [[(1 : ℚ)]] [[2]]).length = 1 ∧
    (dataInit [[(1 : ℚ)]] [[2]]).getitem 0 = some ([1], [2]) := by
  have h := C5_data_container [[(1 : ℚ)]] [[2]] rfl 0 (by decide)
  exact ⟨h.1, h.2⟩

set_option maxRecDepth 8000 in
/-- C6: with the configured `epochs = 1000`, the progress line fires exactly
when `(epoch + 1)` is a multiple of `epochs // 10 = 100`, i.e. every 100
epochs, and exactly 10 of the 1000 epochs report. -/
theorem C6_reporting_cadence :
    (∀ epoch : ℕ, report_check epochs epoch = some ((epoch + 1) % 100 == 0)) ∧
    (List.range epochs).countP
      (fun epoch => report_check epochs epoch == some true) = 10 := by
  constructor
  · intro epoch
    rfl
  · rfl

/-- C7: the final reported evaluation figure — the accumulated mean squared
error over the inverse-transformed test batches, divided by the number of
batches — is non-negative (and, being a rational number, finite). -/
theorem C7_eval_loss_nonneg (ycol : List ℚ)
    (batches : List (List ℚ × List ℚ)) :
    0 ≤ eval_loss ycol batches := by
  unfold eval_loss
  apply div_nonneg
  · apply List.sum_nonneg
    intro x hx
    obtain ⟨b, _, rfl⟩ := List.mem_map.mp hx
    exact mse_loss_nonneg _ _
  · positivity

/-- C8: the generated dataset's feature matrix has as many rows as the
target vector has entries, both equal 1000 in the default configuration,
and after the reshape to a single-column matrix the target's row count
equals the feature matrix's row count. -/
theorem C8_dataset_shapes :
    (make_regression n_samples n_features).1.length =
      (make_regression n_samples n_features).2.length ∧
    (make_regression n_samples n_features).1.length = 1000 ∧
    (reshape_col (make_regression n_samples n_features).2).length =
      (make_regression n_samples n_features).1.length := by
  refine ⟨?_, ?_, ?_⟩ <;>
    simp only [make_regression, reshape_col, List.length_map, List.length_range,
      n_samples]

/-- C9: `Data.__init__` never compares the row counts of `X` and `y`:
construction succeeds for every pair of arrays and the reported length is
`X`'s row count regardless of `y`; in the concrete container with two
feature rows and one target row, index 1 is accepted by the length but is
out of range for the target tensor. -/
theorem C9_data_no_length_check :
    (∀ X y : List (List ℚ), (dataInit X y).length = X.length) ∧
    (dataInit [[1], [2]] [[3]]).length = 2 ∧
    (dataInit [[1], [2]] [[3]]).getitem 1 = none :=
  ⟨fun _ _ => rfl, rfl, rfl⟩

/-- C10: the reporting condition divides by `epochs // 10`, so it fails
(`ZeroDivisionError`, modelled by `none`) exactly when `epochs < 10`; with
the configured `epochs = 1000` the divisor is 100 and the condition is
defined at every epoch. -/
theorem C10_report_divisor_safety :
    (∀ eps epoch : ℕ, report_check eps epoch = none ↔ eps < 10) ∧
    epochs / 10 = 100 ∧
    (∀ epoch : ℕ,
      report_check epochs epoch = some ((epoch + 1) % (epochs / 10) == 0)) := by
  refine ⟨fun eps epoch => ?_, rfl, fun epoch => rfl⟩
  unfold report_check
  rcases Nat.lt_or_ge eps 10 with hlt | hge
  · simp [Nat.div_eq_of_lt hlt, hlt]
  · have hne : eps / 10 ≠ 0 := by
      have := Nat.one_le_div_iff (by norm_num : 0 < 10) |>.mpr hge
      omega
    simp [hne]
    omega

end LinReg
